import Mathlib

/-!
Verification development for the NodeSecureScanner (NSS) repository: a
static-analysis scanner for Node.js projects.  We give a shallow embedding
of the pattern-matching and aggregation engine — `findFilesWithPattern`
(utils/fileUtils.js), the domain aggregators (scanner/*.js) and the
composite scorer (scanner/reportGenerator.js, index.js) — and prove the
specification's claims about them.

Conventions of the embedding:
* JavaScript strings are `List Char`; a file corpus is a list of
  `(relative path, content)` pairs.
* The JavaScript regular-expression engine is external library code; a
  regex is modelled by its occurrence oracle, a function
  `List Char → List (List Char)` returning the matched texts of all
  occurrences in document order, so `content.match(re)[0]` (for a
  non-global `re`, as all rules in the repository are) is the head of
  that list.  String patterns are modelled concretely by substring
  search, mirroring `String.prototype.includes`.
* Numeric scores are `ℤ`, except the composite scorer which subtracts a
  non-integral weight (1.5) and is therefore computed in `ℚ` and then
  rounded exactly as JavaScript `Math.round` does (`⌊x + 1/2⌋`).
* `{success:false}`-style fallible results and absent object fields are
  `Option`s; external tools (npm audit, npm outdated) are oracle inputs.
-/

namespace NSS

/-! ## JavaScript string primitives -/

/-- `startsWithSeq needle hay`: does `hay` start with `needle`?
(Helper for substring search.) -/
def startsWithSeq : List Char → List Char → Bool
  | [], _ => true
  | _ :: _, [] => false
  | a :: as, b :: bs => a == b && startsWithSeq as bs

/-- `containsSeq needle hay` models JavaScript `hay.includes(needle)`:
`needle` occurs contiguously inside `hay`. -/
def containsSeq (needle : List Char) : List Char → Bool
  | [] => startsWithSeq needle []
  | c :: rest => startsWithSeq needle (c :: rest) || containsSeq needle rest

/-- JavaScript whitespace stripped by `String.prototype.trim` (the
characters that can occur inside one line of a file). -/
def isJsSpace (c : Char) : Bool :=
  c == ' ' || c == '\t' || c == '\r' || c == '\n'

/-- Model of JavaScript `s.trim()`. -/
def jsTrim (s : List Char) : List Char :=
  ((s.dropWhile isJsSpace).reverse.dropWhile isJsSpace).reverse

/-- Model of JavaScript `Array.prototype.findIndex`, returning `none`
instead of `-1` when no element satisfies the test. -/
def firstIdxWith (p : α → Bool) : List α → Option Nat
  | [] => none
  | a :: as => if p a then some 0 else (firstIdxWith p as).map (· + 1)

/-! ## Pattern matcher — `findFilesWithPattern` (utils/fileUtils.js)

A `contentPattern` argument is either a plain string (searched with
`content.includes`) or a regex (modelled by its occurrence oracle, see
the header comment).  `matchEntry` is the body of the `for (const file
of files)` loop: at most one `Match` is produced per file, from the
first occurrence only. -/

inductive JsPattern where
  /-- a plain-string content pattern -/
  | str (s : List Char)
  /-- a regex content pattern, given by its occurrence oracle -/
  | regex (occ : List Char → List (List Char))

/-- The record pushed onto `matches` by `findFilesWithPattern`:
`{file, line, context}` with `line` 1-based or `null`. -/
structure JsMatch where
  file : String
  line : Option Nat
  context : Option (List Char)
  deriving DecidableEq, Repr

/-- Model of JavaScript `content.match(pattern)` reduced to the matched
text: the pattern string itself when `content.includes(pattern)`, or the
first regex occurrence. -/
def jsMatchFirst : JsPattern → List Char → Option (List Char)
  | .str s, content => if containsSeq s content then some s else none
  | .regex occ, content => (occ content).head?

/-- One iteration of the file loop of `findFilesWithPattern`
(utils/fileUtils.js lines 195–222): `none` when the file's content does
not match, otherwise the single `Match` built from the first line (top
to bottom) containing the matched text — `line`/`context` are `null`
when no single line contains it.  The string branch stores the raw line,
the regex branch stores the line trimmed, exactly as in the source. -/
def matchEntry (pat : JsPattern) (file : String) (content : List Char) : Option JsMatch :=
  match pat with
  | .str s =>
    if containsSeq s content then
      let lines := content.splitOn '\n'
      match firstIdxWith (fun l => containsSeq s l) lines with
      | some i => some ⟨file, some (i + 1), some (lines.getD i [])⟩
      | none => some ⟨file, none, none⟩
    else none
  | .regex occ =>
    match (occ content).head? with
    | some m =>
      let lines := content.splitOn '\n'
      match firstIdxWith (fun l => containsSeq m l) lines with
      | some i => some ⟨file, some (i + 1), some (jsTrim (lines.getD i []))⟩
      | none => some ⟨file, none, none⟩
    | none => none

/-- `findFilesWithPattern` (utils/fileUtils.js lines 191–225) over a
resolved corpus of `(relative path, content)` pairs. -/
def findFilesWithPattern (corpus : List (String × List Char)) (pat : JsPattern) :
    List JsMatch :=
  corpus.filterMap fun fc => matchEntry pat fc.1 fc.2

end NSS

namespace NSS

/-! ## Project manifest (`package.json`) -/

/-- A parsed dependency manifest: `dependencies` and `devDependencies`
as association lists of package-name → version-range. -/
structure PackageJson where
  dependencies : List (String × String)
  devDependencies : List (String × String)
  deriving Repr

/-- JavaScript truthiness of `dependencies[pkg]`: the key must be
present with a non-empty version string. -/
def jsTruthy : Option String → Bool
  | some s => !(s == "")
  | none => false

/-- Lookup in `{...packageJson.dependencies, ...packageJson.devDependencies}`:
a `devDependencies` entry overrides a `dependencies` one. -/
def mergedLookup (pj : PackageJson) (key : String) : Option String :=
  match pj.devDependencies.lookup key with
  | some v => some v
  | none => pj.dependencies.lookup key

/-! ## Middleware scanner (scanner/middlewareScanner.js)

Only the fields the claims use are kept per package (`name`,
`priority`, `npm`); the French description strings are elided. -/

structure MwPackage where
  name : String
  priority : String
  npm : String
  deriving DecidableEq, Repr

/-- The fixed `securityMiddlewares` registry (middlewareScanner.js
lines 4–95). -/
def securityMiddlewares : List MwPackage :=
  [⟨"helmet", "HIGH", "helmet"⟩,
   ⟨"cors", "HIGH", "cors"⟩,
   ⟨"express-rate-limit", "HIGH", "express-rate-limit"⟩,
   ⟨"csurf", "HIGH", "csurf"⟩,
   ⟨"express-validator", "HIGH", "express-validator"⟩,
   ⟨"xss-clean", "HIGH", "xss-clean"⟩,
   ⟨"hpp", "MEDIUM", "hpp"⟩,
   ⟨"sanitize-html", "MEDIUM", "sanitize-html"⟩,
   ⟨"cookie-parser", "MEDIUM", "cookie-parser"⟩,
   ⟨"express-session", "MEDIUM", "express-session"⟩,
   ⟨"express-mongo-sanitize", "MEDIUM", "express-mongo-sanitize"⟩,
   ⟨"content-security-policy", "MEDIUM", "helmet ou csp"⟩,
   ⟨"compression", "LOW", "compression"⟩,
   ⟨"express-fileupload", "LOW", "express-fileupload"⟩,
   ⟨"timeout", "LOW", "connect-timeout"⟩]

/-- Package resolution of `scanMiddlewares` (middlewareScanner.js lines
167–183): `(installedPackages, missingPackages)`.  When the manifest is
absent the `for` loop never runs, so both lists stay empty. -/
def scanMiddlewaresPackages (manifest : Option PackageJson) :
    List MwPackage × List MwPackage :=
  match manifest with
  | none => ([], [])
  | some pj => securityMiddlewares.partition fun mw => jsTruthy (mergedLookup pj mw.npm)

/-- Domain-local middleware score (middlewareScanner.js lines 284–300).
The `installed` argument is unused in the source as well. -/
def mwSecurityScore (_installed missing : List MwPackage) (configIssues : ℕ) : ℤ :=
  let missingHighPriority := (missing.filter fun m => m.priority == "HIGH").length
  let missingMediumPriority := (missing.filter fun m => m.priority == "MEDIUM").length
  max 0 (min 100
    (100 - 15 * (missingHighPriority : ℤ) - 5 * (missingMediumPriority : ℤ)
      - 10 * (configIssues : ℤ)))

/-- The `missing` sub-object returned by `scanMiddlewares` counts only
HIGH-priority missing packages (middlewareScanner.js lines 255–260). -/
def mwMissingHighCount (manifest : Option PackageJson) : ℕ :=
  ((scanMiddlewaresPackages manifest).2.filter fun m => m.priority == "HIGH").length

/-! ## Authentication scanner package resolution (scanner/authScanner.js) -/

/-- `recommendedPackages` (authScanner.js lines 89–100). -/
def authRecommendedPackages : List String :=
  ["bcrypt", "argon2", "jsonwebtoken", "passport", "express-jwt", "helmet",
   "express-rate-limit", "express-validator", "accesscontrol", "casl"]

/-- Package resolution of `scanAuthentication` (authScanner.js lines
142–156): `(installedPackages, missingPackages)`; both stay empty when
the manifest is absent. -/
def scanAuthPackages (manifest : Option PackageJson) : List String × List String :=
  match manifest with
  | none => ([], [])
  | some pj => authRecommendedPackages.partition fun p => jsTruthy (mergedLookup pj p)

/-! ## Dependency scanner (scanner/dependencyScanner.js)

`npm audit` / `npm outdated` are external tools, modelled as oracle
inputs carrying their success flag and the counts the scanner reads. -/

structure NpmAuditOut where
  success : Bool
  critical : ℕ
  high : ℕ
  moderate : ℕ
  low : ℕ
  deriving DecidableEq, Repr

structure NpmOutdatedOut where
  success : Bool
  highRisk : ℕ
  mediumRisk : ℕ
  deriving DecidableEq, Repr

/-- Domain-local dependency score (dependencyScanner.js lines 303–324). -/
def depSecurityScore (audit : NpmAuditOut) (outdated : NpmOutdatedOut) : ℤ :=
  let s1 : ℤ :=
    if audit.success then
      100 - 20 * (audit.critical : ℤ) - 10 * (audit.high : ℤ)
        - 5 * (audit.moderate : ℤ) - 2 * (audit.low : ℤ)
    else 100
  let s2 : ℤ :=
    if outdated.success then s1 - 5 * (outdated.highRisk : ℤ) - 2 * (outdated.mediumRisk : ℤ)
    else s1
  max 0 (min 100 s2)

/-- Outcome of `scanDependencies` (dependencyScanner.js lines 288–293):
an error object when the manifest is missing or invalid, otherwise a
result carrying the domain-local score. -/
inductive DepScanOutcome where
  | errorResult (error : String)
  | ok (securityScore : ℤ)
  deriving DecidableEq, Repr

/-- `scanDependencies` guard and score (dependencyScanner.js lines
288–324). -/
def scanDependenciesOutcome (manifest : Option PackageJson)
    (audit : NpmAuditOut) (outdated : NpmOutdatedOut) : DepScanOutcome :=
  match manifest with
  | none => .errorResult "package.json non trouvé ou invalide"
  | some _ => .ok (depSecurityScore audit outdated)

end NSS

namespace NSS

/-! ## Rate-limit scanner (scanner/rateLimitScanner.js)

The two threshold-carrying configuration rules (`Limite de taux
faible`, threshold 100, and `Fenêtre de temps de limite courte`,
threshold 60000) are embedded with their regex occurrence oracle and a
`capture` oracle modelling `context.match(pattern)[1]` followed by
`parseInt` (the capture group is `(\d+)`, so parsing never fails when
the group is present).  The third rule (`Absence de message d…`) has no
threshold and is not needed by the claims, so it is elided. -/

structure RlIssue where
  file : String
  line : Option Nat
  name : String
  severity : String
  context : Option (List Char)
  value : Option Nat
  deriving DecidableEq, Repr

structure RlConfigRule where
  name : String
  severity : String
  threshold : Option Nat
  pat : JsPattern
  capture : List Char → Option Nat

/-- The `max:` rule (rateLimitScanner.js lines 33–39). -/
def lowMaxRule (pat : JsPattern) (capture : List Char → Option Nat) : RlConfigRule :=
  ⟨"Limite de taux faible", "MEDIUM", some 100, pat, capture⟩

/-- The `windowMs:` rule (rateLimitScanner.js lines 41–46). -/
def shortWindowRule (pat : JsPattern) (capture : List Char → Option Nat) : RlConfigRule :=
  ⟨"Fenêtre de temps de limite courte", "LOW", some 60000, pat, capture⟩

/-- Body of the configuration-issue loop of `scanRateLimit`
(rateLimitScanner.js lines 143–171) for one raw match: extract the
captured numeric value (only when the rule has a threshold and the
match has a context line), apply the threshold filter (`continue` ↦
`none`), otherwise report the issue. -/
def rlFilterMatch (rule : RlConfigRule) (r : JsMatch) : Option RlIssue :=
  match rule.threshold, r.context with
  | some t, some ctx =>
    match rule.capture ctx with
    | some v =>
      if rule.name == "Limite de taux faible" && decide (v ≤ t) then none
      else if rule.name == "Fenêtre de temps de limite courte" && decide (v ≥ t) then none
      else some ⟨r.file, r.line, rule.name, rule.severity, r.context, some v⟩
    | none => some ⟨r.file, r.line, rule.name, rule.severity, r.context, none⟩
  | _, _ => some ⟨r.file, r.line, rule.name, rule.severity, r.context, none⟩

/-- The configuration-issue loop of `scanRateLimit` (rateLimitScanner.js
lines 138–172) over a rule list. -/
def rlConfigIssues (corpus : List (String × List Char)) (rules : List RlConfigRule) :
    List RlIssue :=
  rules.flatMap fun rule =>
    (findFilesWithPattern corpus rule.pat).filterMap (rlFilterMatch rule)

/-- Domain-local rate-limit score (rateLimitScanner.js lines 226–243),
as a function of the counts the source reads. -/
def rlSecurityScore (detectionsCount installedCount configIssuesCount
    unprotectedCount : ℕ) : ℤ :=
  let base : ℤ :=
    if detectionsCount > 0 then
      50 + min 20 (5 * (installedCount : ℤ))
        - min 40 (10 * (configIssuesCount : ℤ))
        - min 30 (10 * (unprotectedCount : ℤ))
    else 0
  max 0 (min 100 base)

/-! ## CORS scanner (scanner/corsScanner.js) -/

structure CorsIssue where
  file : String
  line : Option Nat
  name : String
  severity : String
  context : Option (List Char)
  deriving DecidableEq, Repr

/-- Domain-local CORS score (corsScanner.js lines 134–157). -/
def corsScore (detected : Bool) (issues : List CorsIssue) : ℤ :=
  if detected then
    50 + (if issues.any (fun i => i.name == "CORS permissif avec wildcard") then 0 else 25)
       + (if issues.any (fun i => i.severity == "HIGH") then 0 else 15)
       + (let mediumIssues := (issues.filter fun i => i.severity == "MEDIUM").length
          if mediumIssues = 0 then 10 else if mediumIssues ≤ 1 then 5 else 0)
  else 0

/-- The regexes used by `scanCORS`, as occurrence oracles. -/
structure CorsOracles where
  /-- regex `/cors\(/i` -/
  corsCall : JsPattern
  /-- regex `/res\.header\(['"´](Access-Control-Allow-|Origin)/i` -/
  manualHeader : JsPattern
  /-- regex `/cors\(\s*\x7b\s*origin\s*:\s*['"´]\*['"´]/i` -/
  wildcard : JsPattern
  /-- the `credentials: true` pattern -/
  credentials : JsPattern
  /-- the permissive-methods pattern -/
  methodsPermissive : JsPattern
  /-- the permissive-allowedHeaders pattern -/
  allowedHeaders : JsPattern
  /-- regex `/helmet\(/i` -/
  helmetUse : JsPattern

/-- The `corsPatterns` registry (corsScanner.js lines 4–29):
`(name, severity, pattern)`, in registration order. -/
def corsPatternDefs (o : CorsOracles) : List (String × String × JsPattern) :=
  [("CORS permissif avec wildcard", "HIGH", o.wildcard),
   ("CORS avec credentials", "MEDIUM", o.credentials),
   ("CORS avec méthodes permissives", "MEDIUM", o.methodsPermissive),
   ("CORS avec allowedHeaders permissifs", "MEDIUM", o.allowedHeaders)]

/-- The fields of the `scanCORS` result object used by the claims. -/
structure CorsResult where
  installed : Bool
  detected : Bool
  issues : List CorsIssue
  helmetUsed : Bool
  securityScore : ℤ
  deriving Repr

/-- `scanCORS` (corsScanner.js lines 42–176), omitting the
`status`/`configurations`/recommendation strings which no claim
mentions. -/
def scanCORS (corpus : List (String × List Char)) (manifest : Option PackageJson)
    (o : CorsOracles) : CorsResult :=
  let corsInstalled :=
    match manifest with
    | some pj => jsTruthy (mergedLookup pj "cors")
    | none => false
  let corsUsage := findFilesWithPattern corpus o.corsCall
  let corsDetected := !corsUsage.isEmpty
  let manualCorsHeaders := findFilesWithPattern corpus o.manualHeader
  let corsIssues := (corsPatternDefs o).flatMap fun p =>
    (findFilesWithPattern corpus p.2.2).map fun r =>
      CorsIssue.mk r.file r.line p.1 p.2.1 r.context
  let detected := corsDetected || !manualCorsHeaders.isEmpty
  { installed := corsInstalled
    detected := detected
    issues := corsIssues
    helmetUsed := !(findFilesWithPattern corpus o.helmetUse).isEmpty
    securityScore := corsScore detected corsIssues }

end NSS

namespace NSS

/-! ## Composite scorer — `calculateSecurityScore`
(scanner/reportGenerator.js lines 176–237)

The scorer reads, from the merged results object: the audit
vulnerability counts (absent when the dependency scan or `npm audit`
failed), the secrets list, the `total` of the auth / input-validation /
SQL-injection / CSRF domains, the CORS issue list, the rate-limit issue
count and the missing-middleware count.  JavaScript truthiness guards
on the `total` fields are kept (`if (results.auth && results.auth.total)`
skips the deduction when the total is `0`). -/

structure VulnCounts where
  critical : ℕ
  high : ℕ
  moderate : ℕ
  low : ℕ
  deriving DecidableEq, Repr

structure SecretRec where
  severity : String
  deriving DecidableEq, Repr

structure ReportResults where
  /-- `results.dependencies.audit.vulnerabilities`, `none` when any of
  the three levels is absent -/
  auditVulns : Option VulnCounts
  /-- `results.secrets.secrets` -/
  secrets : List SecretRec
  /-- `results.auth.total` -/
  authTotal : ℕ
  /-- `results.inputValidation.total` -/
  inputValidationTotal : ℕ
  /-- `results.sqlInjection.total` -/
  sqlInjectionTotal : ℕ
  /-- `results.csrf.total` -/
  csrfTotal : ℕ
  /-- `results.cors.issues` -/
  corsIssues : List CorsIssue
  /-- `results.rateLimit.issues.count` -/
  rateLimitIssuesCount : ℕ
  /-- `results.middlewares.missing.count` -/
  middlewaresMissingCount : ℕ
  deriving Repr

/-- Number of secrets of a given severity
(`results.secrets.secrets.filter(s =′ s.severity === sev).length`). -/
def countSeverity (l : List SecretRec) (sev : String) : ℕ :=
  (l.filter fun s => s.severity == sev).length

/-- Number of CORS issues of a given severity. -/
def countCorsSeverity (l : List CorsIssue) (sev : String) : ℕ :=
  (l.filter fun i => i.severity == sev).length

/-- JavaScript `Math.round`: round half toward positive infinity. -/
def jsRound (q : ℚ) : ℤ := Int.floor (q + 1/2)

/-- The running `score` value of `calculateSecurityScore` just before
`Math.max(0, Math.min(100, Math.round(score)))`
(reportGenerator.js lines 177–233). -/
def compositeRaw (r : ReportResults) : ℚ :=
  let s1 : ℚ :=
    match r.auditVulns with
    | some v =>
      100 - (v.critical : ℚ) * 15 - (v.high : ℚ) * 10 - (v.moderate : ℚ) * 5
        - (v.low : ℚ) * 2
    | none => 100
  let s2 := s1 - (countSeverity r.secrets "CRITICAL" : ℚ) * 10
    - (countSeverity r.secrets "HIGH" : ℚ) * 5
  let s3 := if r.authTotal ≠ 0 then s2 - min 20 ((r.authTotal : ℚ) * 2) else s2
  let s4 :=
    if r.inputValidationTotal ≠ 0 then
      s3 - min 15 ((r.inputValidationTotal : ℚ) * (3 / 2))
    else s3
  let s5 :=
    if r.sqlInjectionTotal ≠ 0 then s4 - min 20 ((r.sqlInjectionTotal : ℚ) * 3) else s4
  let s6 := if r.csrfTotal ≠ 0 then s5 - min 15 ((r.csrfTotal : ℚ) * 2) else s5
  let s7 := s6 - (countCorsSeverity r.corsIssues "HIGH" : ℚ) * 5
  let s8 := s7 - min 10 (r.rateLimitIssuesCount : ℚ)
  s8 - min 20 ((r.middlewaresMissingCount : ℚ) * 4)

/-- `calculateSecurityScore` (reportGenerator.js line 236):
`Math.max(0, Math.min(100, Math.round(score)))`. -/
def calculateSecurityScore (r : ReportResults) : ℤ :=
  max 0 (min 100 (jsRound (compositeRaw r)))

/-- The total deduction as the specification words it (one weighted,
capped term per category, no truthiness guards): dependency vulns −15 /
−10 / −5 / −2, secrets −10 / −5, auth −2 each capped at −20,
input-validation −1.5 each capped at −15, injection −3 each capped at
−20, CSRF −2 each capped at −15, CORS HIGH −5 each, rate-limit count
capped at −10, missing middleware −4 each capped at −20. -/
def specDeductions (r : ReportResults) : ℚ :=
  (match r.auditVulns with
   | some v =>
     (v.critical : ℚ) * 15 + (v.high : ℚ) * 10 + (v.moderate : ℚ) * 5 + (v.low : ℚ) * 2
   | none => 0)
  + (countSeverity r.secrets "CRITICAL" : ℚ) * 10
  + (countSeverity r.secrets "HIGH" : ℚ) * 5
  + min 20 ((r.authTotal : ℚ) * 2)
  + min 15 ((r.inputValidationTotal : ℚ) * (3 / 2))
  + min 20 ((r.sqlInjectionTotal : ℚ) * 3)
  + min 15 ((r.csrfTotal : ℚ) * 2)
  + (countCorsSeverity r.corsIssues "HIGH" : ℚ) * 5
  + min 10 (r.rateLimitIssuesCount : ℚ)
  + min 20 ((r.middlewaresMissingCount : ℚ) * 4)

/-- The composite score as the specification words it: start at 100,
subtract every capped deduction, clamp to [0,100], round to nearest. -/
def specCompositeScore (r : ReportResults) : ℤ :=
  max 0 (min 100 (jsRound (100 - specDeductions r)))

/-! ## Final result assembly — index.js lines 88–119 -/

/-- What index.js can observe of `dependencies.audit.vulnerabilities`:
the whole scan failed (`{error}`, no `audit` key), the audit sub-object
is an error (`audit: {error}`, no `vulnerabilities` key), or the object
of per-severity counts (its `Object.values`). -/
inductive DepAuditView where
  | depsError
  | auditError
  | vulns (counts : List ℕ)
  deriving DecidableEq, Repr

/-- `dependencies.audit ? Object.values(dependencies.audit.vulnerabilities
|| \x7b\x7d).reduce((a, b) =′ a + b, 0) : 0` (index.js line 90). -/
def depVulnSum : DepAuditView → ℕ
  | .depsError => 0
  | .auditError => 0
  | .vulns counts => counts.sum

structure SecretsResult where
  secrets : List SecretRec
  deriving Repr

/-- The `missing` sub-object of the middleware result, as read by
index.js and the composite scorer. -/
structure MwMissing where
  count : ℕ
  deriving DecidableEq, Repr

/-- A domain result of which only the `total` field is consumed. -/
structure TotalOnly where
  total : ℕ
  deriving DecidableEq, Repr

structure RunStats where
  executionTime : String
  totalIssues : ℕ
  deriving DecidableEq, Repr

/-- The merged results object handed to the report generator
(index.js lines 104–119); `γ` and `ρ` are the cors / rateLimit result
shapes, opaque to the issue count. -/
structure FinalResults (γ ρ : Type) where
  dependencies : DepAuditView
  secrets : SecretsResult
  middlewares : MwMissing
  cors : γ
  rateLimit : ρ
  sqlInjection : TotalOnly
  auth : TotalOnly
  inputValidation : TotalOnly
  csrf : TotalOnly
  cookies : TotalOnly
  stats : RunStats

/-- `vulnCount` (index.js lines 89–97). -/
def vulnCount (deps : DepAuditView) (secrets : SecretsResult) (mw : MwMissing)
    (sql auth iv csrf cookies : TotalOnly) : ℕ :=
  depVulnSum deps + secrets.secrets.length + mw.count + sql.total + auth.total
    + iv.total + csrf.total + cookies.total

/-- Assembly of the final results object (index.js lines 104–119):
`stats.totalIssues` is `vulnCount`. -/
def buildResults {γ ρ : Type} (deps : DepAuditView) (secrets : SecretsResult)
    (mw : MwMissing) (cors : γ) (rl : ρ) (sql auth iv csrf cookies : TotalOnly)
    (execTime : String) : FinalResults γ ρ :=
  { dependencies := deps
    secrets := secrets
    middlewares := mw
    cors := cors
    rateLimit := rl
    sqlInjection := sql
    auth := auth
    inputValidation := iv
    csrf := csrf
    cookies := cookies
    stats := ⟨execTime, vulnCount deps secrets mw sql auth iv csrf cookies⟩ }

end NSS

namespace NSS

/-! ## Helper lemmas -/

lemma min_cap_zero {cap : ℚ} (h : 0 ≤ cap) : min cap 0 = 0 := min_eq_right h

lemma min20_zero : min (20 : ℚ) 0 = 0 := min_cap_zero (by norm_num)

lemma min15_zero : min (15 : ℚ) 0 = 0 := min_cap_zero (by norm_num)

lemma min10_zero : min (10 : ℚ) 0 = 0 := min_cap_zero (by norm_num)

lemma clamp_mem (x : ℤ) : 0 ≤ max 0 (min 100 x) ∧ max 0 (min 100 x) ≤ 100 :=
  ⟨le_max_left _ _, max_le (by norm_num) (min_le_left _ _)⟩

/-- The running score of `calculateSecurityScore` is exactly `100` minus
the specification's deduction table: the JavaScript truthiness guards on
the `total` fields only skip deductions that would be `0` anyway. -/
lemma compositeRaw_eq (r : ReportResults) :
    compositeRaw r = 100 - specDeductions r := by
  unfold compositeRaw specDeductions
  rcases r.auditVulns with _ | v <;>
    by_cases h1 : r.authTotal = 0 <;>
      by_cases h2 : r.inputValidationTotal = 0 <;>
        by_cases h3 : r.sqlInjectionTotal = 0 <;>
          by_cases h4 : r.csrfTotal = 0 <;>
            simp [h1, h2, h3, h4, min20_zero, min15_zero] <;> ring

end NSS

namespace NSS

/-! ## Claim C2 — composite-score deduction table -/

/-- C2: the composite security score starts at 100 and applies exactly
the specification's deductions — dependency vulnerabilities −15/−10/−5/−2
per critical/high/moderate/low, secrets −10 per CRITICAL and −5 per
HIGH, auth −2 each capped at −20, input-validation −1.5 each capped at
−15, SQL/NoSQL injection −3 each capped at −20, CSRF −2 each capped at
−15, CORS HIGH issues −5 each, the rate-limit issue count capped at
−10, missing high-priority middleware −4 each capped at −20 — with the
final result clamped to [0,100] and rounded to the nearest integer. -/
theorem composite_score_matches_spec_table (r : ReportResults) :
    calculateSecurityScore r = specCompositeScore r := by
  unfold calculateSecurityScore specCompositeScore
  rw [compositeRaw_eq]

end NSS

namespace NSS

/-! ## Claim C3 — monotonicity and clamping of the composite score -/

/-- Pointwise order on audit vulnerability counts. -/
def VulnCountsLe (a b : VulnCounts) : Prop :=
  a.critical ≤ b.critical ∧ a.high ≤ b.high ∧ a.moderate ≤ b.moderate ∧ a.low ≤ b.low

/-- Order on the optional audit block: comparable only when both runs
have the same audit availability. -/
def AuditLe : Option VulnCounts → Option VulnCounts → Prop
  | none, none => True
  | some a, some b => VulnCountsLe a b
  | _, _ => False

/-- `ResultsLe a b`: every issue count read by the composite scorer is
at least as large in `b` as in `a` (the "`b` has more issues" order). -/
def ResultsLe (a b : ReportResults) : Prop :=
  AuditLe a.auditVulns b.auditVulns ∧
  countSeverity a.secrets "CRITICAL" ≤ countSeverity b.secrets "CRITICAL" ∧
  countSeverity a.secrets "HIGH" ≤ countSeverity b.secrets "HIGH" ∧
  a.authTotal ≤ b.authTotal ∧
  a.inputValidationTotal ≤ b.inputValidationTotal ∧
  a.sqlInjectionTotal ≤ b.sqlInjectionTotal ∧
  a.csrfTotal ≤ b.csrfTotal ∧
  countCorsSeverity a.corsIssues "HIGH" ≤ countCorsSeverity b.corsIssues "HIGH" ∧
  a.rateLimitIssuesCount ≤ b.rateLimitIssuesCount ∧
  a.middlewaresMissingCount ≤ b.middlewaresMissingCount

lemma specDeductions_mono {a b : ReportResults} (h : ResultsLe a b) :
    specDeductions a ≤ specDeductions b := by
  obtain ⟨h0, h1, h2, h3, h4, h5, h6, h7, h8, h9⟩ := h
  unfold specDeductions
  have haudit :
      (match a.auditVulns with
       | some v =>
         (v.critical : ℚ) * 15 + (v.high : ℚ) * 10 + (v.moderate : ℚ) * 5 + (v.low : ℚ) * 2
       | none => (0 : ℚ)) ≤
      (match b.auditVulns with
       | some v =>
         (v.critical : ℚ) * 15 + (v.high : ℚ) * 10 + (v.moderate : ℚ) * 5 + (v.low : ℚ) * 2
       | none => (0 : ℚ)) := by
    rcases ha : a.auditVulns with _ | va <;> rcases hb : b.auditVulns with _ | vb <;>
        rw [ha, hb] at h0 <;> simp [AuditLe] at h0 ⊢
    obtain ⟨g1, g2, g3, g4⟩ := h0
    gcongr
  gcongr

lemma composite_range (r : ReportResults) :
    0 ≤ calculateSecurityScore r ∧ calculateSecurityScore r ≤ 100 := by
  unfold calculateSecurityScore
  exact clamp_mem _

/-- C3: the composite score is monotonically non-increasing as any
individual domain's issue counts increase (holding the others fixed —
`ResultsLe` covers that case, allowing every count to grow), and is
always in [0,100]. -/
theorem composite_score_monotone_and_in_range :
    (∀ a b : ReportResults, ResultsLe a b →
      calculateSecurityScore b ≤ calculateSecurityScore a) ∧
    (∀ r : ReportResults,
      0 ≤ calculateSecurityScore r ∧ calculateSecurityScore r ≤ 100) := by
  constructor
  · intro a b h
    have hd := specDeductions_mono h
    have hraw : compositeRaw b ≤ compositeRaw a := by
      rw [compositeRaw_eq, compositeRaw_eq]; linarith
    have hfloor : jsRound (compositeRaw b) ≤ jsRound (compositeRaw a) := by
      unfold jsRound
      exact Int.floor_le_floor (by linarith)
    unfold calculateSecurityScore
    exact max_le_max le_rfl (min_le_min le_rfl hfloor)
  · exact composite_range

/-- C3 witness: concrete instance — adding three auth issues and one
CSRF issue cannot raise the score, and the scores lie in [0,100]. -/
theorem composite_score_monotone_witness :
    calculateSecurityScore ⟨some ⟨0, 1, 0, 0⟩, [⟨"HIGH"⟩], 3, 0, 0, 1, [], 2, 1⟩ ≤
      calculateSecurityScore ⟨some ⟨0, 1, 0, 0⟩, [⟨"HIGH"⟩], 0, 0, 0, 0, [], 2, 1⟩ ∧
    (0 ≤ calculateSecurityScore ⟨some ⟨0, 1, 0, 0⟩, [⟨"HIGH"⟩], 3, 0, 0, 1, [], 2, 1⟩ ∧
      calculateSecurityScore ⟨some ⟨0, 1, 0, 0⟩, [⟨"HIGH"⟩], 3, 0, 0, 1, [], 2, 1⟩ ≤ 100) :=
  ⟨composite_score_monotone_and_in_range.1 _ _
      (by
        refine ⟨⟨le_refl _, le_refl _, le_refl _, le_refl _⟩, ?_⟩
        simp [countSeverity, countCorsSeverity]),
    composite_score_monotone_and_in_range.2 _⟩

end NSS

namespace NSS

/-! ## Claim C4 — caps per deduction category -/

/-- C4 counterexample: the dependency-vulnerability deduction is NOT
capped.  With 7 critical dependency vulnerabilities and every other
domain at zero issues, the running score is 100 − 7·15 = −5 < 0 before
clamping, and the composite score is driven all the way to 0 by this
single domain — contradicting the claim that every deduction category
has an independent cap preventing one domain from zeroing the score. -/
theorem composite_single_domain_zeroes_counterexample :
    compositeRaw ⟨some ⟨7, 0, 0, 0⟩, [], 0, 0, 0, 0, [], 0, 0⟩ < 0 ∧
    calculateSecurityScore ⟨some ⟨7, 0, 0, 0⟩, [], 0, 0, 0, 0, [], 0, 0⟩ = 0 := by
  constructor
  · norm_num [compositeRaw, countSeverity, countCorsSeverity]
  · norm_num [calculateSecurityScore, compositeRaw, jsRound, countSeverity,
      countCorsSeverity]

lemma score_ge_of_deductions_le {r : ReportResults} (h : specDeductions r ≤ 20) :
    80 ≤ calculateSecurityScore r := by
  have h1 : (80 : ℚ) ≤ compositeRaw r := by rw [compositeRaw_eq]; linarith
  have h2 : (80 : ℤ) ≤ jsRound (compositeRaw r) := by
    unfold jsRound
    rw [Int.le_floor]
    push_cast
    linarith
  unfold calculateSecurityScore
  exact le_trans (le_min (by norm_num) h2) (le_max_right _ _)

end NSS

namespace NSS

/-- C4 amended: only the auth, input-validation, injection, CSRF,
rate-limit and missing-middleware deductions are independently capped
(at 20, 15, 20, 15, 10 and 20 points); consequently none of those six
domains alone — all other domains at zero issues — can drive the
composite score below 80, let alone to 0.  (The dependency-vulnerability,
secrets and CORS deductions are uncapped; see the counterexample.) -/
theorem composite_capped_domains_cannot_zero (r : ReportResults)
    (hA : r.auditVulns = none) (hS : r.secrets = []) (hC : r.corsIssues = []) :
    ((r.inputValidationTotal = 0 ∧ r.sqlInjectionTotal = 0 ∧ r.csrfTotal = 0 ∧
        r.rateLimitIssuesCount = 0 ∧ r.middlewaresMissingCount = 0) →
      80 ≤ calculateSecurityScore r) ∧
    ((r.authTotal = 0 ∧ r.sqlInjectionTotal = 0 ∧ r.csrfTotal = 0 ∧
        r.rateLimitIssuesCount = 0 ∧ r.middlewaresMissingCount = 0) →
      80 ≤ calculateSecurityScore r) ∧
    ((r.authTotal = 0 ∧ r.inputValidationTotal = 0 ∧ r.csrfTotal = 0 ∧
        r.rateLimitIssuesCount = 0 ∧ r.middlewaresMissingCount = 0) →
      80 ≤ calculateSecurityScore r) ∧
    ((r.authTotal = 0 ∧ r.inputValidationTotal = 0 ∧ r.sqlInjectionTotal = 0 ∧
        r.rateLimitIssuesCount = 0 ∧ r.middlewaresMissingCount = 0) →
      80 ≤ calculateSecurityScore r) ∧
    ((r.authTotal = 0 ∧ r.inputValidationTotal = 0 ∧ r.sqlInjectionTotal = 0 ∧
        r.csrfTotal = 0 ∧ r.middlewaresMissingCount = 0) →
      80 ≤ calculateSecurityScore r) ∧
    ((r.authTotal = 0 ∧ r.inputValidationTotal = 0 ∧ r.sqlInjectionTotal = 0 ∧
        r.csrfTotal = 0 ∧ r.rateLimitIssuesCount = 0) →
      80 ≤ calculateSecurityScore r) := by
  refine ⟨?_, ?_, ?_, ?_, ?_, ?_⟩ <;>
    (rintro ⟨e1, e2, e3, e4, e5⟩
     apply score_ge_of_deductions_le
     unfold specDeductions
     rw [hA, hS, hC]
     simp [countSeverity, countCorsSeverity, e1, e2, e3, e4, e5,
       min20_zero, min15_zero, min10_zero]) <;>
    exact Or.inl (by norm_num)

/-- C4 witness: three auth issues alone leave the composite score at
94 ≥ 80. -/
theorem composite_capped_domains_cannot_zero_witness :
    80 ≤ calculateSecurityScore ⟨none, [], 3, 0, 0, 0, [], 0, 0⟩ :=
  (composite_capped_domains_cannot_zero ⟨none, [], 3, 0, 0, 0, [], 0, 0⟩
      rfl rfl rfl).1 ⟨rfl, rfl, rfl, rfl, rfl⟩

end NSS

namespace NSS

/-! ## Claim C9 — domain-local scores stay in [0,100] -/

/-- C9: for arbitrary nonnegative issue and missing-package counts
(including extreme inputs — any list of missing packages, any count
values), the middleware, rate-limit, CORS and dependency domain-local
scores are integers in [0,100].  (All four scores are integer-valued by
construction; this theorem proves the range.) -/
theorem domain_local_scores_in_range :
    (∀ (installed missing : List MwPackage) (configIssues : ℕ),
      0 ≤ mwSecurityScore installed missing configIssues ∧
        mwSecurityScore installed missing configIssues ≤ 100) ∧
    (∀ detections installedCount configCount unprotectedCount : ℕ,
      0 ≤ rlSecurityScore detections installedCount configCount unprotectedCount ∧
        rlSecurityScore detections installedCount configCount unprotectedCount ≤ 100) ∧
    (∀ (detected : Bool) (issues : List CorsIssue),
      0 ≤ corsScore detected issues ∧ corsScore detected issues ≤ 100) ∧
    (∀ (audit : NpmAuditOut) (outdated : NpmOutdatedOut),
      0 ≤ depSecurityScore audit outdated ∧ depSecurityScore audit outdated ≤ 100) := by
  refine ⟨?_, ?_, ?_, ?_⟩
  · intro installed missing configIssues
    unfold mwSecurityScore
    exact clamp_mem _
  · intro d i c u
    unfold rlSecurityScore
    exact clamp_mem _
  · intro detected issues
    cases detected with
    | false => unfold corsScore; simp
    | true =>
        unfold corsScore
        simp only [if_pos rfl]
        split_ifs <;> constructor <;> norm_num
  · intro audit outdated
    unfold depSecurityScore
    exact clamp_mem _

/-! ## Claim C10 — `stats.totalIssues` composition (index.js) -/

/-- C10: for every run, `stats.totalIssues` of the final results object
equals the sum of the dependency-audit vulnerability counts, the
secrets list length, the missing high-priority middleware count
(`middlewares.missing.count` counts exactly the HIGH-priority missing
packages), and the `total` fields of the sqlInjection, auth,
inputValidation, csrf and cookies domains — and it never depends on the
cors or rateLimit results. -/
theorem total_issues_composition :
    ∀ (γ ρ : Type) (deps : DepAuditView) (secrets : SecretsResult)
      (manifest : Option PackageJson) (cors : γ) (rl : ρ)
      (sql auth iv csrf cookies : TotalOnly) (t : String),
      (buildResults deps secrets ⟨mwMissingHighCount manifest⟩ cors rl
          sql auth iv csrf cookies t).stats.totalIssues
        = depVulnSum deps + secrets.secrets.length + mwMissingHighCount manifest
          + sql.total + auth.total + iv.total + csrf.total + cookies.total ∧
      ∀ (cors' : γ) (rl' : ρ),
        (buildResults deps secrets ⟨mwMissingHighCount manifest⟩ cors' rl'
            sql auth iv csrf cookies t).stats.totalIssues
          = (buildResults deps secrets ⟨mwMissingHighCount manifest⟩ cors rl
              sql auth iv csrf cookies t).stats.totalIssues :=
  fun _ _ _ _ _ _ _ _ _ _ _ _ _ => ⟨rfl, fun _ _ => rfl⟩

/-! ## Claim C7 — behaviour without a dependency manifest -/

/-- C7 counterexample: with no manifest, `scanMiddlewares` and
`scanAuthentication` resolve packages to `(installed, missing) =
([], [])` — the `missing` list is NOT the full recommended-package
list — and `scanDependencies` returns an error result rather than a
normal one.  Both halves contradict the claim. -/
theorem no_manifest_counterexample :
    (scanMiddlewaresPackages none).2 = [] ∧
    (scanMiddlewaresPackages none).2 ≠ securityMiddlewares ∧
    (scanAuthPackages none).2 = [] ∧
    (scanAuthPackages none).2 ≠ authRecommendedPackages ∧
    scanDependenciesOutcome none ⟨true, 0, 0, 0, 0⟩ ⟨true, 0, 0⟩
      = .errorResult "package.json non trouvé ou invalide" := by
  refine ⟨rfl, ?_, rfl, ?_, rfl⟩ <;> decide

/-- C7 amended: for every project without a dependency manifest, the
middleware and auth aggregators' package resolution yields
`installed = []` and `missing = []` (the empty list — the
recommended-package loop is simply skipped — not the full recommended
list), without failing; the dependency aggregator instead returns an
`{error: …}` result object. -/
theorem no_manifest_package_resolution :
    ∀ (audit : NpmAuditOut) (outdated : NpmOutdatedOut),
      scanMiddlewaresPackages none = ([], []) ∧
      scanAuthPackages none = ([], []) ∧
      scanDependenciesOutcome none audit outdated
        = .errorResult "package.json non trouvé ou invalide" :=
  fun _ _ => ⟨rfl, rfl, rfl⟩

end NSS

namespace NSS

/-! ## Claim C5 — rate-limit threshold filter -/

/-- C5: in the rate-limit configuration-issue loop, a match of the
`Limite de taux faible` ("low max") rule whose captured value is at
most 100 is discarded and one whose captured value exceeds 100 is
reported with that value; a match of the `Fenêtre de temps de limite
courte` ("short window") rule whose captured value is at least 60000 is
discarded and one below 60000 is reported. -/
theorem rate_limit_threshold_filter (pat : JsPattern)
    (capture : List Char → Option Nat) (r : JsMatch) (ctx : List Char) (v : ℕ)
    (hc : r.context = some ctx) (hv : capture ctx = some v) :
    (rlFilterMatch (lowMaxRule pat capture) r = none ↔ v ≤ 100) ∧
    (100 < v → rlFilterMatch (lowMaxRule pat capture) r =
      some ⟨r.file, r.line, "Limite de taux faible", "MEDIUM", r.context, some v⟩) ∧
    (rlFilterMatch (shortWindowRule pat capture) r = none ↔ 60000 ≤ v) ∧
    (v < 60000 → rlFilterMatch (shortWindowRule pat capture) r =
      some ⟨r.file, r.line, "Fenêtre de temps de limite courte", "LOW",
        r.context, some v⟩) := by
  have e1 : rlFilterMatch (lowMaxRule pat capture) r
      = if v ≤ 100 then none
        else some ⟨r.file, r.line, "Limite de taux faible", "MEDIUM", r.context,
          some v⟩ := by
    simp only [rlFilterMatch, lowMaxRule, hc, hv]
    by_cases h : v ≤ 100 <;> simp [h]
  have e2 : rlFilterMatch (shortWindowRule pat capture) r
      = if 60000 ≤ v then none
        else some ⟨r.file, r.line, "Fenêtre de temps de limite courte", "LOW",
          r.context, some v⟩ := by
    simp only [rlFilterMatch, shortWindowRule, hc, hv]
    by_cases h : 60000 ≤ v <;> simp [h]
  rw [e1, e2, hc]
  by_cases h1 : v ≤ 100 <;> by_cases h2 : 60000 ≤ v <;> simp [h1, h2]

/-- C5 witness: a captured `max` value of 500 (above the 100 threshold)
is reported by the low-max rule, and the same value (below the 60000
threshold) is reported by the short-window rule. -/
theorem rate_limit_threshold_filter_witness :
    (rlFilterMatch
        (lowMaxRule (JsPattern.regex fun _ => []) fun _ => some 500)
        ⟨"server.js", some 3, some ['m']⟩ = none ↔ (500 : ℕ) ≤ 100) ∧
    ((100 : ℕ) < 500 → rlFilterMatch
        (lowMaxRule (JsPattern.regex fun _ => []) fun _ => some 500)
        ⟨"server.js", some 3, some ['m']⟩ =
      some ⟨"server.js", some 3, "Limite de taux faible", "MEDIUM",
        some ['m'], some 500⟩) ∧
    (rlFilterMatch
        (shortWindowRule (JsPattern.regex fun _ => []) fun _ => some 500)
        ⟨"server.js", some 3, some ['m']⟩ = none ↔ (60000 : ℕ) ≤ 500) ∧
    ((500 : ℕ) < 60000 → rlFilterMatch
        (shortWindowRule (JsPattern.regex fun _ => []) fun _ => some 500)
        ⟨"server.js", some 3, some ['m']⟩ =
      some ⟨"server.js", some 3, "Fenêtre de temps de limite courte", "LOW",
        some ['m'], some 500⟩) :=
  rate_limit_threshold_filter (JsPattern.regex fun _ => []) (fun _ => some 500)
    ⟨"server.js", some 3, some ['m']⟩ ['m'] 500 rfl rfl

end NSS

namespace NSS

/-! ## Claim C6 — end-to-end CORS wildcard scenario -/

/-- C6 amended: a project whose source matches `cors(` and the
wildcard-origin pattern exactly once and no other CORS issue pattern
yields a CORS result with `detected = true` and exactly one
HIGH-severity issue named for the permissive wildcard origin — but
`securityScore` is exactly **60**, not 50: the score is 50 (base, CORS
detected) + 0 (wildcard issue present) + 0 (HIGH issue present) + 10
(zero MEDIUM issues). -/
theorem cors_wildcard_scenario (corpus : List (String × List Char))
    (manifest : Option PackageJson) (o : CorsOracles) (m : JsMatch)
    (h1 : findFilesWithPattern corpus o.corsCall ≠ [])
    (h2 : findFilesWithPattern corpus o.wildcard = [m])
    (h3 : findFilesWithPattern corpus o.credentials = [])
    (h4 : findFilesWithPattern corpus o.methodsPermissive = [])
    (h5 : findFilesWithPattern corpus o.allowedHeaders = []) :
    (scanCORS corpus manifest o).detected = true ∧
    (scanCORS corpus manifest o).issues =
      [⟨m.file, m.line, "CORS permissif avec wildcard", "HIGH", m.context⟩] ∧
    (scanCORS corpus manifest o).securityScore = 60 := by
  have hde : (findFilesWithPattern corpus o.corsCall).isEmpty = false := by
    simp [List.isEmpty_iff, h1]
  unfold scanCORS
  simp only [corsPatternDefs, h2, h3, h4, h5, hde, List.flatMap_cons, List.flatMap_nil,
    List.map_cons, List.map_nil, List.nil_append, List.append_nil, Bool.not_false,
    Bool.true_or]
  refine ⟨trivial, trivial, ?_⟩
  unfold corsScore
  simp

/-- A one-file demo project whose only source line is
`app.use(cors({origin: "*"}));` (braces written here as escapes). -/
def corsDemoContent : List Char :=
  ("app.use(cors(\x7borigin: \"*\"\x7d));").toList

/-- The text matched by the wildcard-origin regex
`/cors\(\s*\x7b\s*origin\s*:\s*['"´]\*['"´]/i` on the demo content. -/
def corsDemoWildcardText : List Char :=
  ("cors(\x7borigin: \"*\"").toList

/-- The text matched by `/cors\(/i` on the demo content. -/
def corsDemoCallText : List Char := ("cors(").toList

/-- Occurrence oracles for the demo content: `cors(` and the wildcard
pattern each match once (their matched text realized concretely); the
credentials / methods / allowedHeaders / manual-header / helmet
patterns do not match the demo line. -/
def corsDemoOracles : CorsOracles where
  corsCall := .regex fun c =>
    if containsSeq corsDemoCallText c then [corsDemoCallText] else []
  manualHeader := .regex fun _ => []
  wildcard := .regex fun c =>
    if containsSeq corsDemoWildcardText c then [corsDemoWildcardText] else []
  credentials := .regex fun _ => []
  methodsPermissive := .regex fun _ => []
  allowedHeaders := .regex fun _ => []
  helmetUse := .regex fun _ => []

def corsDemoCorpus : List (String × List Char) := [("app.js", corsDemoContent)]

/-- A manifest declaring no security packages. -/
def corsDemoManifest : PackageJson := ⟨[("express", "4.18.2")], []⟩

/-- C6 counterexample: on the concrete wildcard-origin project the CORS
scanner reports `detected = true` and exactly one HIGH issue named for
the permissive wildcard origin, but `securityScore` is 60 — the claimed
value of exactly 50 is false (the code grants +10 for having zero
MEDIUM-severity issues, which the claim's arithmetic omits). -/
theorem cors_scenario_score_not_50 :
    (scanCORS corsDemoCorpus (some corsDemoManifest) corsDemoOracles).detected = true ∧
    ((scanCORS corsDemoCorpus (some corsDemoManifest) corsDemoOracles).issues.map
        fun i => (i.name, i.severity))
      = [("CORS permissif avec wildcard", "HIGH")] ∧
    (scanCORS corsDemoCorpus (some corsDemoManifest) corsDemoOracles).securityScore
      = 60 ∧
    ¬ (scanCORS corsDemoCorpus (some corsDemoManifest) corsDemoOracles).securityScore
        = 50 := by
  refine ⟨?_, ?_, ?_, ?_⟩ <;> decide

/-- C6 witness: the amended scenario theorem applied to the concrete
demo project. -/
theorem cors_wildcard_scenario_witness :
    (scanCORS corsDemoCorpus (some corsDemoManifest) corsDemoOracles).detected = true ∧
    (scanCORS corsDemoCorpus (some corsDemoManifest) corsDemoOracles).issues =
      [⟨"app.js", some 1, "CORS permissif avec wildcard", "HIGH",
        some corsDemoContent⟩] ∧
    (scanCORS corsDemoCorpus (some corsDemoManifest) corsDemoOracles).securityScore
      = 60 :=
  cors_wildcard_scenario corsDemoCorpus (some corsDemoManifest) corsDemoOracles
    ⟨"app.js", some 1, some corsDemoContent⟩
    (by decide) (by decide) (by decide) (by decide) (by decide)

end NSS

namespace NSS

/-! ## Claim C1 — one Match per (file, rule) pair -/

lemma matchEntry_file {pat : JsPattern} {f : String} {c : List Char} {m : JsMatch}
    (h : matchEntry pat f c = some m) : m.file = f := by
  cases pat with
  | str s =>
    unfold matchEntry at h
    by_cases hc : containsSeq s c
    · simp only [hc, if_true] at h
      rcases hidx : firstIdxWith (fun l => containsSeq s l) (c.splitOn '\n') with _ | i <;>
          simp only [hidx] at h <;> cases h <;> rfl
    · simp [hc] at h
  | regex occ =>
    unfold matchEntry at h
    rcases hh : (occ c).head? with _ | mm
    · simp [hh] at h
    · simp only [hh] at h
      rcases hidx : firstIdxWith (fun l => containsSeq mm l) (c.splitOn '\n') with _ | i <;>
          simp only [hidx] at h <;> cases h <;> rfl

lemma matchEntry_isSome (pat : JsPattern) (f : String) (c : List Char) :
    (matchEntry pat f c).isSome = (jsMatchFirst pat c).isSome := by
  cases pat with
  | str s =>
    unfold matchEntry jsMatchFirst
    by_cases hc : containsSeq s c
    · simp only [hc, if_true]
      rcases hidx : firstIdxWith (fun l => containsSeq s l) (c.splitOn '\n') <;>
        simp [hidx]
    · simp [hc]
  | regex occ =>
    unfold matchEntry jsMatchFirst
    rcases hh : (occ c).head? with _ | m
    · simp [hh]
    · simp only [hh]
      rcases hidx : firstIdxWith (fun l => containsSeq m l) (c.splitOn '\n') <;>
        simp [hidx]

lemma findFilesWithPattern_filter_nil {corpus : List (String × List Char)}
    {pat : JsPattern} {f : String} (hf : f ∉ corpus.map Prod.fst) :
    (findFilesWithPattern corpus pat).filter (fun m => m.file == f) = [] := by
  induction corpus with
  | nil => rfl
  | cons hd tl ih =>
    have hf1 : hd.1 ≠ f := by
      intro e
      exact hf (by simp [e])
    have hf2 : f ∉ tl.map Prod.fst := fun hmem => hf (by simp [hmem])
    unfold findFilesWithPattern
    rw [List.filterMap_cons]
    cases hme : matchEntry pat hd.1 hd.2 with
    | none => exact ih hf2
    | some m =>
      rw [List.filter_cons]
      have hne : (m.file == f) = false := by
        rw [matchEntry_file hme]
        simp [hf1]
      simp only [hne, Bool.false_eq_true, if_false]
      exact ih hf2

end NSS

namespace NSS

lemma findFilesWithPattern_cons (hd : String × List Char)
    (tl : List (String × List Char)) (pat : JsPattern) :
    findFilesWithPattern (hd :: tl) pat =
      match matchEntry pat hd.1 hd.2 with
      | none => findFilesWithPattern tl pat
      | some m => m :: findFilesWithPattern tl pat := by
  unfold findFilesWithPattern
  rw [List.filterMap_cons]
  cases matchEntry pat hd.1 hd.2 <;> rfl

/-- C1: for every file of the resolved corpus (with distinct relative
paths) and every rule pattern, `findFilesWithPattern` returns exactly
one Match for the (file, rule) pair when the file's content matches the
pattern — regardless of how many occurrences the pattern's oracle
reports inside the file — and no Match when it does not. -/
theorem matcher_presence_only (corpus : List (String × List Char)) (pat : JsPattern)
    (f : String) (c : List Char)
    (hnodup : (corpus.map Prod.fst).Nodup) (hmem : (f, c) ∈ corpus) :
    ((findFilesWithPattern corpus pat).filter fun m => m.file == f).length
      = if (jsMatchFirst pat c).isSome then 1 else 0 := by
  induction corpus with
  | nil => cases hmem
  | cons hd tl ih =>
    rw [findFilesWithPattern_cons]
    rw [List.map_cons] at hnodup
    obtain ⟨hhead, htl⟩ := List.nodup_cons.mp hnodup
    rcases List.mem_cons.mp hmem with heq | hmemtl
    · have hdeq : hd = (f, c) := heq.symm
      subst hdeq
      cases hme : matchEntry pat f c with
      | none =>
        simp only [hme]
        have h0 : (jsMatchFirst pat c).isSome = false := by
          rw [← matchEntry_isSome pat f c, hme]
          rfl
        rw [h0, findFilesWithPattern_filter_nil hhead]
        simp
      | some m =>
        simp only [hme]
        have h1 : (jsMatchFirst pat c).isSome = true := by
          rw [← matchEntry_isSome pat f c, hme]
          rfl
        rw [h1, List.filter_cons]
        have hmf : (m.file == f) = true := by simp [matchEntry_file hme]
        simp only [hmf, if_true]
        rw [findFilesWithPattern_filter_nil hhead]
        simp
    · cases hme : matchEntry pat hd.1 hd.2 with
      | none =>
        simp only [hme]
        exact ih htl hmemtl
      | some m =>
        simp only [hme, List.filter_cons]
        have hne : hd.1 ≠ f := by
          intro e
          have hfmem : f ∈ tl.map Prod.fst := List.mem_map.mpr ⟨(f, c), hmemtl, rfl⟩
          have hcontr : hd.1 ∈ tl.map Prod.fst := by
            rw [e]
            exact hfmem
          exact hhead hcontr
        have hmf : (m.file == f) = false := by simp [matchEntry_file hme, hne]
        simp only [hmf, Bool.false_eq_true, if_false]
        exact ih htl hmemtl

/-- C1 witness: a two-file corpus where the rule fires five times in
`a.js` (five occurrences) and never in `b.js`: exactly one Match for
`a.js`, none for `b.js`. -/
theorem matcher_presence_only_witness :
    (((findFilesWithPattern [("a.js", ['x', 'x']), ("b.js", ['y'])]
          (JsPattern.regex fun c =>
            if c = ['x', 'x'] then [['x'], ['x'], ['x'], ['x'], ['x']] else [])).filter
        fun m => m.file == "a.js").length
      = if (jsMatchFirst
            (JsPattern.regex fun c =>
              if c = ['x', 'x'] then [['x'], ['x'], ['x'], ['x'], ['x']] else [])
            ['x', 'x']).isSome then 1 else 0) ∧
    (((findFilesWithPattern [("a.js", ['x', 'x']), ("b.js", ['y'])]
          (JsPattern.regex fun c =>
            if c = ['x', 'x'] then [['x'], ['x'], ['x'], ['x'], ['x']] else [])).filter
        fun m => m.file == "b.js").length
      = if (jsMatchFirst
            (JsPattern.regex fun c =>
              if c = ['x', 'x'] then [['x'], ['x'], ['x'], ['x'], ['x']] else [])
            ['y']).isSome then 1 else 0) :=
  ⟨matcher_presence_only _ _ "a.js" ['x', 'x'] (by decide) (by decide),
    matcher_presence_only _ _ "b.js" ['y'] (by decide) (by decide)⟩

end NSS

namespace NSS

/-! ## Claim C8 — first-line resolution and trimmed snippet -/

lemma getD_mem_of_lt {α : Type _} {l : List α} {i : ℕ} (d : α) (h : i < l.length) :
    l.getD i d ∈ l := by
  induction l generalizing i with
  | nil => simp at h
  | cons a as ih =>
    cases i with
    | zero => simp
    | succ i' =>
      simp only [List.getD_cons_succ]
      exact List.mem_cons_of_mem _ (ih (by simpa using h))

lemma firstIdxWith_none_spec {α : Type _} {p : α → Bool} {l : List α}
    (h : firstIdxWith p l = none) : ∀ x ∈ l, p x = false := by
  induction l with
  | nil => intro x hx; cases hx
  | cons a as ih =>
    unfold firstIdxWith at h
    by_cases hp : p a
    · simp [hp] at h
    · intro x hx
      rcases List.mem_cons.mp hx with rfl | hxs
      · simpa using hp
      · have hrec : firstIdxWith p as = none := by
          simpa [hp, Option.map_eq_none'] using h
        exact ih hrec x hxs

lemma firstIdxWith_some_spec {α : Type _} {p : α → Bool} {l : List α} {i : ℕ} (d : α)
    (h : firstIdxWith p l = some i) :
    i < l.length ∧ p (l.getD i d) = true ∧ ∀ j, j < i → p (l.getD j d) = false := by
  induction l generalizing i with
  | nil => cases h
  | cons a as ih =>
    unfold firstIdxWith at h
    by_cases hp : p a
    · simp only [hp, if_true, Option.some.injEq] at h
      subst h
      exact ⟨Nat.succ_pos _, by simpa using hp, fun j hj => absurd hj (Nat.not_lt_zero j)⟩
    · simp only [hp, Bool.false_eq_true, if_false, Option.map_eq_some'] at h
      obtain ⟨i', hi', rfl⟩ := h
      obtain ⟨hlt, hpi, hmin⟩ := ih hi'
      refine ⟨by simpa using Nat.succ_lt_succ hlt, by simpa using hpi, ?_⟩
      intro j hj
      cases j with
      | zero => simpa using hp
      | succ j' =>
        simpa using hmin j' (Nat.lt_of_succ_lt_succ hj)

lemma firstIdxWith_eq_some_of {α : Type _} {p : α → Bool} {l : List α} {i : ℕ} (d : α)
    (hi : i < l.length) (hp : p (l.getD i d) = true)
    (hmin : ∀ j, j < i → p (l.getD j d) = false) : firstIdxWith p l = some i := by
  induction l generalizing i with
  | nil => simp at hi
  | cons a as ih =>
    unfold firstIdxWith
    cases i with
    | zero =>
      have ha : p a = true := by simpa using hp
      simp [ha]
    | succ i' =>
      have h0 : p a = false := by simpa using hmin 0 (Nat.succ_pos i')
      have hrec : firstIdxWith p as = some i' :=
        ih (by simpa using hi) (by simpa using hp)
          (fun j hj => by simpa using hmin (j + 1) (Nat.succ_lt_succ hj))
      simp [h0, hrec]

/-- C8: for every file and regex rule whose first matched text is `m`,
the returned Match's `line` is the 1-based index of the first line (top
to bottom) of the file that contains `m`, and its `context` snippet is
that line trimmed; when no line of the file contains `m` (a multi-line
match), both `line` and `context` are null. -/
theorem match_line_first_and_trimmed (occ : List Char → List (List Char))
    (f : String) (c m : List Char) (ms : List (List Char)) (hocc : occ c = m :: ms) :
    ∃ mt, matchEntry (.regex occ) f c = some mt ∧ mt.file = f ∧
      ((∀ l ∈ c.splitOn '\n', containsSeq m l = false) →
        mt.line = none ∧ mt.context = none) ∧
      (∀ i, i < (c.splitOn '\n').length →
        containsSeq m ((c.splitOn '\n').getD i []) = true →
        (∀ j, j < i → containsSeq m ((c.splitOn '\n').getD j []) = false) →
        mt.line = some (i + 1) ∧
          mt.context = some (jsTrim ((c.splitOn '\n').getD i []))) := by
  simp only [matchEntry, hocc, List.head?_cons]
  rcases hidx : firstIdxWith (fun l => containsSeq m l) (c.splitOn '\n') with _ | i0
  · refine ⟨⟨f, none, none⟩, by simp [hidx], rfl, fun _ => ⟨rfl, rfl⟩, ?_⟩
    intro i hi hpi hmin
    have hfalse := firstIdxWith_none_spec hidx ((c.splitOn '\n').getD i [])
      (getD_mem_of_lt [] hi)
    rw [hpi] at hfalse
    cases hfalse
  · obtain ⟨hlt, hp0, hmin0⟩ := firstIdxWith_some_spec [] hidx
    refine ⟨⟨f, some (i0 + 1), some (jsTrim ((c.splitOn '\n').getD i0 []))⟩,
      by simp [hidx], rfl, ?_, ?_⟩
    · intro hall
      have := hall ((c.splitOn '\n').getD i0 []) (getD_mem_of_lt [] hlt)
      rw [hp0] at this
      cases this
    · intro i hi hpi hmin
      have heq : firstIdxWith (fun l => containsSeq m l) (c.splitOn '\n') = some i :=
        firstIdxWith_eq_some_of [] hi hpi hmin
      rw [hidx] at heq
      injection heq with heq'
      subst heq'
      exact ⟨rfl, rfl⟩

/-- C8 witness: in the two-line file `"ab\n cd"`, a rule whose first
matched text is `cd` resolves to line 2 with snippet `cd` (the line
` cd` trimmed); the theorem is applied at that concrete input. -/
theorem match_line_first_and_trimmed_witness :
    ∃ mt, matchEntry (.regex fun _ => [['c', 'd']]) "a.js"
        ['a', 'b', '\n', ' ', 'c', 'd'] = some mt ∧ mt.file = "a.js" ∧
      ((∀ l ∈ (['a', 'b', '\n', ' ', 'c', 'd'].splitOn '\n'),
          containsSeq ['c', 'd'] l = false) →
        mt.line = none ∧ mt.context = none) ∧
      (∀ i, i < (['a', 'b', '\n', ' ', 'c', 'd'].splitOn '\n').length →
        containsSeq ['c', 'd'] ((['a', 'b', '\n', ' ', 'c', 'd'].splitOn '\n').getD i [])
          = true →
        (∀ j, j < i →
          containsSeq ['c', 'd']
            ((['a', 'b', '\n', ' ', 'c', 'd'].splitOn '\n').getD j []) = false) →
        mt.line = some (i + 1) ∧
          mt.context = some (jsTrim
            ((['a', 'b', '\n', ' ', 'c', 'd'].splitOn '\n').getD i []))) :=
  match_line_first_and_trimmed (fun _ => [['c', 'd']]) "a.js"
    ['a', 'b', '\n', ' ', 'c', 'd'] ['c', 'd'] [] rfl

end NSS
